import Mathlib

/-!
Verification of the chrome-ext-scout scoring and ranking pipeline.

The definitions below are a shallow embedding of the SQL pipeline in
`src/lib/opportunities/query.ts` (the `with ... extensions_base /
top_excluded / filtered_extensions / global_weighted / global_rating /
category_aggregates / category_scores / candidate_set / distribution /
normalized / final` CTE chain), of the market query in
`src/lib/market/query.ts`, of the category-explorer query in
`src/lib/category/query.ts`, and of the query-parameter parsers in
`src/lib/filters/global.ts` and `src/lib/opportunities/filters.ts`.

SQL double precision values are embedded as exact rationals where the code
only adds, multiplies, divides and compares, and as real numbers where the
code applies the transcendental `ln`.  A deterministic SQL engine is
assumed: each query is a pure function of the snapshot, and `order by` is
embedded as a deterministic sort by the written comparison chain.
-/

/-- Insertion step for the generic insertion sort used to embed SQL
`order by`: keeps `a` before the first element `b` with `le a b`. -/
def insertOn {α : Type} (le : α → α → Bool) (a : α) : List α → List α
  | [] => [a]
  | b :: t => if le a b then a :: b :: t else b :: insertOn le a t

/-- Generic insertion sort with a boolean comparison; stable, total. -/
def sortOn {α : Type} (le : α → α → Bool) : List α → List α
  | [] => []
  | a :: t => insertOn le a (sortOn le t)

/-- Clamp, the embedding of `Math.min(Math.max(v, lo), hi)` from
`src/lib/filters/global.ts`. -/
def clampQ (v lo hi : ℚ) : ℚ := min (max v lo) hi

/-- One row of the `extensions` table as read by `extensions_base`:
`users` and `rating_votes` are `coalesce(..., 0)` so they are total,
`rating` stays nullable. -/
structure ExtensionRecord where
  id : ℕ
  name : String
  url : Option String
  users : ℚ
  rating : Option ℚ
  rating_votes : ℚ
  languages : String
deriving DecidableEq

/-- One row of the `categories` table. -/
structure CategoryRecord where
  id : ℕ
  name : String
deriving DecidableEq

/-- One row of the `category_extensions` linking table. -/
structure CategoryLink where
  category_id : ℕ
  extension_id : ℕ
deriving DecidableEq

/-- The read-only snapshot the pipeline consumes. -/
structure Snapshot where
  extensions : List ExtensionRecord
  categories : List CategoryRecord
  links : List CategoryLink
deriving DecidableEq

/-- The validated filter set produced by `parseGlobalFilters`
(`src/lib/filters/global.ts`). -/
structure GlobalFilters where
  minUsers : ℤ
  maxUsers : Option ℤ
  ratingMin : ℚ
  ratingMax : ℚ
  excludeTopPct : ℤ
  lang : String
  extName : String
deriving DecidableEq

/-- Raw numeric query parameters after `parseNumber`
(`src/lib/filters/global.ts`): `none` stands for an absent, blank or
non-finite parameter, `some r` for any finite parsed number. -/
structure RawQuery where
  minUsers : Option ℚ
  maxUsers : Option ℚ
  ratingMin : Option ℚ
  ratingMax : Option ℚ
  excludeTopPct : Option ℚ
  lang : String
  extName : String

/-- The embedding of `parseGlobalFilters` from `src/lib/filters/global.ts`:
floors or defaults the user bounds, clamps the rating range into `[0, 5]`
(resetting an inverted range), drops `maxUsers` below `minUsers`, and
accepts `excludeTopPct` only when integral, clamped into `[0, 50]`. -/
def parseGlobalFilters (q : RawQuery) : GlobalFilters :=
  let minUsers : ℤ :=
    match q.minUsers with
    | some r => if 0 ≤ r then ⌊r⌋ else 0
    | none => 0
  let maxUsers0 : Option ℤ :=
    match q.maxUsers with
    | some r => if 0 ≤ r then some ⌊r⌋ else none
    | none => none
  let rMin0 : ℚ := match q.ratingMin with | some r => clampQ r 0 5 | none => 0
  let rMax0 : ℚ := match q.ratingMax with | some r => clampQ r 0 5 | none => 5
  let ratingPair : ℚ × ℚ := if rMax0 < rMin0 then (0, 5) else (rMin0, rMax0)
  let maxUsers : Option ℤ :=
    match maxUsers0 with
    | some m => if m < minUsers then none else some m
    | none => none
  let excludeTopPct : ℤ :=
    match q.excludeTopPct with
    | some r => if r.den = 1 then min (max r.num 0) 50 else 0
    | none => 0
  { minUsers := minUsers, maxUsers := maxUsers,
    ratingMin := ratingPair.1, ratingMax := ratingPair.2,
    excludeTopPct := excludeTopPct,
    lang := q.lang.trim, extName := q.extName.trim }

/-- The `globalFiltersSchema` zod contract from `src/lib/filters/global.ts`
as a boolean check: the final `.parse` call raises exactly when this is
false (integrality is carried by the `ℤ` field types). -/
def validGlobalFilters (g : GlobalFilters) : Bool :=
  decide (0 ≤ g.minUsers) &&
  (match g.maxUsers with | none => true | some m => decide (0 ≤ m)) &&
  decide (0 ≤ g.ratingMin) && decide (g.ratingMin ≤ 5) &&
  decide (0 ≤ g.ratingMax) && decide (g.ratingMax ≤ 5) &&
  decide (0 ≤ g.excludeTopPct) && decide (g.excludeTopPct ≤ 50)

/-- Case-insensitive containment, the embedding of
`column ilike '%pattern%'` (callers guard the empty pattern). -/
def containsCI (hay pat : String) : Bool :=
  pat == "" || (hay.toLower.splitOn pat.toLower).length ≥ 2

/-- The `order by b.users desc, b.extension_id asc` comparison of the
`top_excluded` CTE. -/
def baseOrder (a b : ExtensionRecord) : Bool :=
  decide (b.users < a.users) || (a.users == b.users && decide (a.id ≤ b.id))

/-- The `limit` expression of the `top_excluded` CTE:
`0` when `excludeTopPct ≤ 0`, else `ceil(count(*) * pct / 100)` where
`count(*)` ranges over the whole `extensions_base` (raw) set. -/
def excludeCount (total : ℕ) (pct : ℤ) : ℕ :=
  if pct ≤ 0 then 0 else (⌈(total : ℚ) * ((pct : ℚ) / 100)⌉).toNat

/-- The `top_excluded` CTE: ids of the first `excludeCount` rows of the raw
`extensions_base` set ordered by `users desc, extension_id asc`. -/
def topExcluded (s : Snapshot) (f : GlobalFilters) : List ℕ :=
  ((sortOn baseOrder s.extensions).take
      (excludeCount s.extensions.length f.excludeTopPct)).map
    (fun b => b.id)

/-- A row of the `filtered_extensions` CTE.  The CTE keeps only rows with
`rating is not null`, so the rating is carried as a plain rational. -/
structure FilteredExt where
  id : ℕ
  name : String
  url : Option String
  users : ℚ
  rating : ℚ
  rating_votes : ℚ
deriving DecidableEq

/-- The `where` clause of `filtered_extensions` applied to one base row
against a given exclusion list: anti-join on `top_excluded`, user bounds,
rating present and in range, language and name `ilike` filters. -/
def keepFiltered (f : GlobalFilters) (excluded : List ℕ)
    (b : ExtensionRecord) : Option FilteredExt :=
  match b.rating with
  | none => none
  | some r =>
    if excluded.all (fun te => te != b.id) &&
        decide ((f.minUsers : ℚ) ≤ b.users) &&
        (match f.maxUsers with
         | none => true
         | some m => decide (b.users ≤ (m : ℚ))) &&
        decide (f.ratingMin ≤ r) && decide (r ≤ f.ratingMax) &&
        (f.lang == "" || containsCI b.languages f.lang) &&
        (f.extName == "" || containsCI b.name f.extName)
    then some ⟨b.id, b.name, b.url, b.users, r, b.rating_votes⟩
    else none

/-- The `filtered_extensions` CTE shared by the opportunities, market and
category queries. -/
def filteredExtensions (s : Snapshot) (f : GlobalFilters) : List FilteredExt :=
  s.extensions.filterMap (keepFiltered f (topExcluded s f))

/-- Numerator of `global_weighted`:
`sum(rating * rating_votes) filter (where rating_votes > 0)`. -/
def globalWeightedSum (fes : List FilteredExt) : ℚ :=
  ((fes.filter (fun fe => decide (0 < fe.rating_votes))).map
    (fun fe => fe.rating * fe.rating_votes)).sum

/-- Denominator of `global_weighted`:
`sum(rating_votes) filter (where rating_votes > 0)`. -/
def globalWeightSum (fes : List FilteredExt) : ℚ :=
  ((fes.filter (fun fe => decide (0 < fe.rating_votes))).map
    (fun fe => fe.rating_votes)).sum

/-- The `global_rating` CTE: vote-weighted global average rating, `0` when
the weight sum is zero. -/
def globalRating (fes : List FilteredExt) : ℚ :=
  if 0 < globalWeightSum fes then globalWeightedSum fes / globalWeightSum fes
  else 0

/-- Modelled from the spec: the Bayesian prior weight `K`
(`OPPORTUNITIES_BAYES_PRIOR_WEIGHT`, imported from
`@/lib/opportunities/constants`, a module absent from the sources).  The
spec scenario uses `K = 5000` and the market and category queries in the
sources hardcode `5000.0`. -/
def OPPORTUNITIES_BAYES_PRIOR_WEIGHT : ℚ := 5000

/-- The Bayesian smoothing of `category_scores`: blend of the category's
own weighted average with the global prior, or the prior itself when the
category has no weighted votes. -/
def smoothedAvg (weightedSum weightSum globalAvg : ℚ) : ℚ :=
  if 0 < weightSum then
    (weightSum / (weightSum + OPPORTUNITIES_BAYES_PRIOR_WEIGHT)) *
        (weightedSum / weightSum) +
      (OPPORTUNITIES_BAYES_PRIOR_WEIGHT /
          (weightSum + OPPORTUNITIES_BAYES_PRIOR_WEIGHT)) * globalAvg
  else globalAvg

/-- One row of the `category_aggregates` CTE. -/
structure CategoryAggregate where
  category_id : ℕ
  category_name : String
  competition_count : ℕ
  rating_weighted_sum : ℚ
  rating_weight_sum : ℚ
deriving DecidableEq

/-- The join rows `category_extensions ce join filtered_extensions fe` for
one category id (the left-join rows whose `fe` side is null contribute
nothing to the distinct count or the filtered sums and are dropped). -/
def categoryMemberRows (links : List CategoryLink) (fes : List FilteredExt)
    (cid : ℕ) : List FilteredExt :=
  (links.filter (fun ce => ce.category_id == cid)).flatMap
    (fun ce => fes.filter (fun fe => fe.id == ce.extension_id))

/-- The `category_aggregates` CTE over explicit inputs: per category the
distinct member count and the vote-filtered rating sums. -/
def categoryAggregatesList (cats : List CategoryRecord)
    (links : List CategoryLink) (fes : List FilteredExt) :
    List CategoryAggregate :=
  cats.map (fun c =>
    let rows := categoryMemberRows links fes c.id
    { category_id := c.id, category_name := c.name,
      competition_count := ((rows.map (fun fe => fe.id)).dedup).length,
      rating_weighted_sum :=
        ((rows.filter (fun fe => decide (0 < fe.rating_votes))).map
          (fun fe => fe.rating * fe.rating_votes)).sum,
      rating_weight_sum :=
        ((rows.filter (fun fe => decide (0 < fe.rating_votes))).map
          (fun fe => fe.rating_votes)).sum })

/-- The `category_aggregates` CTE of the opportunities query. -/
def categoryAggregates (s : Snapshot) (f : GlobalFilters) :
    List CategoryAggregate :=
  categoryAggregatesList s.categories s.links (filteredExtensions s f)

/-- One row of the `category_scores` CTE. -/
structure CategoryScore where
  category_id : ℕ
  category_name : String
  competition_count : ℕ
  category_avg_rating : ℚ
deriving DecidableEq

/-- The `category_scores` CTE over explicit inputs: smoothed average per
category, restricted to categories with at least one surviving member. -/
def categoryScoresList (cats : List CategoryRecord)
    (links : List CategoryLink) (fes : List FilteredExt) :
    List CategoryScore :=
  ((categoryAggregatesList cats links fes).filter
      (fun ca => decide (0 < ca.competition_count))).map
    (fun ca =>
      { category_id := ca.category_id, category_name := ca.category_name,
        competition_count := ca.competition_count,
        category_avg_rating :=
          smoothedAvg ca.rating_weighted_sum ca.rating_weight_sum
            (globalRating fes) })

/-- The `category_scores` CTE of the opportunities query. -/
def categoryScores (s : Snapshot) (f : GlobalFilters) : List CategoryScore :=
  categoryScoresList s.categories s.links (filteredExtensions s f)

/-- One row of the `candidate_set` CTE: one filtered extension in one
scored category, with the zero-floored rating gap. -/
structure CandidateRow where
  category_id : ℕ
  category_name : String
  extension_id : ℕ
  extension_name : String
  extension_url : Option String
  users : ℚ
  rating : ℚ
  rating_votes : ℚ
  category_avg_rating : ℚ
  competition_count : ℕ
  rating_gap : ℚ
deriving DecidableEq

/-- The `candidate_set` CTE: `filtered_extensions` joined through
`category_extensions` to `category_scores`, with
`rating_gap = greatest(category_avg_rating - rating, 0)`. -/
def candidateSetList (links : List CategoryLink) (fes : List FilteredExt)
    (css : List CategoryScore) : List CandidateRow :=
  fes.flatMap (fun fe =>
    (links.filter (fun ce => ce.extension_id == fe.id)).flatMap (fun ce =>
      (css.filter (fun cs => cs.category_id == ce.category_id)).map (fun cs =>
        { category_id := cs.category_id, category_name := cs.category_name,
          extension_id := fe.id, extension_name := fe.name,
          extension_url := fe.url, users := fe.users, rating := fe.rating,
          rating_votes := fe.rating_votes,
          category_avg_rating := cs.category_avg_rating,
          competition_count := cs.competition_count,
          rating_gap := max (cs.category_avg_rating - fe.rating) 0 })))

/-- The `candidate_set` CTE of the opportunities query. -/
def candidateSet (s : Snapshot) (f : GlobalFilters) : List CandidateRow :=
  candidateSetList s.links (filteredExtensions s f) (categoryScores s f)

/-- Modelled from the spec: the demand percentile threshold
`OPPORTUNITIES_USERS_P95` from the absent `@/lib/opportunities/constants`
module (spec default 0.95). -/
def OPPORTUNITIES_USERS_P95 : ℚ := 0.95

/-- Modelled from the spec: the vote-count percentile threshold
`OPPORTUNITIES_VOTES_P95` (spec default 0.95). -/
def OPPORTUNITIES_VOTES_P95 : ℚ := 0.95

/-- Modelled from the spec: the competition percentile threshold
`OPPORTUNITIES_COMPETITION_P95` (spec default 0.95). -/
def OPPORTUNITIES_COMPETITION_P95 : ℚ := 0.95

/-- Modelled from the spec: the rating-gap cap percentile
`OPPORTUNITIES_GAP_CAP_P90` (spec default 0.90). -/
def OPPORTUNITIES_GAP_CAP_P90 : ℚ := 0.90

/-- The embedding of `percentile_cont(f) within group (order by x)`:
linear interpolation at rank `f * (n - 1)` over the ascending sort;
`none` on an empty population (SQL null). -/
def percentileCont (f : ℚ) (xs : List ℚ) : Option ℚ :=
  match sortOn (fun a b => decide (a ≤ b)) xs with
  | [] => none
  | s =>
    let n := s.length
    let h : ℚ := f * ((n : ℚ) - 1)
    let lo : ℕ := (⌊h⌋).toNat
    let frac : ℚ := h - ((⌊h⌋ : ℤ) : ℚ)
    let a := s.getD lo 0
    let b := s.getD (lo + 1) a
    some (a + frac * (b - a))

/-- The `distribution` CTE of the opportunities query. -/
structure Distribution where
  p95_users : Option ℚ
  p95_votes : Option ℚ
  p95_competition_count : Option ℚ
  gap_cap : Option ℚ
deriving DecidableEq

/-- The `distribution` CTE over explicit inputs. -/
def distributionList (cands : List CandidateRow) (css : List CategoryScore) :
    Distribution :=
  { p95_users :=
      percentileCont OPPORTUNITIES_USERS_P95 (cands.map (fun c => c.users)),
    p95_votes :=
      percentileCont OPPORTUNITIES_VOTES_P95
        (cands.map (fun c => c.rating_votes)),
    p95_competition_count :=
      percentileCont OPPORTUNITIES_COMPETITION_P95
        (css.map (fun cs => (cs.competition_count : ℚ))),
    gap_cap :=
      percentileCont OPPORTUNITIES_GAP_CAP_P90
        (cands.map (fun c => c.rating_gap)) }

/-- The `distribution` CTE of the opportunities query. -/
def distributionOf (s : Snapshot) (f : GlobalFilters) : Distribution :=
  distributionList (candidateSet s f) (categoryScores s f)

/-- The logarithmic normalization of the `normalized` CTE:
`coalesce(p, 0) > 0 ? least(greatest(ln(v+1)/ln(p+1), 0), 1) : 0`. -/
noncomputable def logNorm (v : ℚ) (p : Option ℚ) : ℝ :=
  if 0 < p.getD 0 then
    min (max (Real.log ((v : ℝ) + 1) / Real.log (((p.getD 0 : ℚ) : ℝ) + 1)) 0) 1
  else 0

/-- The linear rating-gap normalization of the `normalized` CTE:
`coalesce(cap, 0) > 0 ? least(greatest(gap / cap, 0), 1) : 0`. -/
def linearNorm (v : ℚ) (p : Option ℚ) : ℚ :=
  if 0 < p.getD 0 then min (max (v / p.getD 0) 0) 1 else 0

/-- One row of the `normalized` CTE. -/
structure NormalizedRow where
  category_id : ℕ
  category_name : String
  extension_id : ℕ
  extension_name : String
  extension_url : Option String
  users : ℚ
  rating : ℚ
  rating_votes : ℚ
  category_avg_rating : ℚ
  competition_count : ℕ
  rating_gap : ℚ
  demand_norm : ℝ
  competition_norm : ℝ
  rating_gap_norm : ℚ
  confidence_norm : ℝ

/-- The `normalized` CTE applied to one candidate row. -/
noncomputable def normalizeRow (d : Distribution) (c : CandidateRow) :
    NormalizedRow :=
  { category_id := c.category_id, category_name := c.category_name,
    extension_id := c.extension_id, extension_name := c.extension_name,
    extension_url := c.extension_url, users := c.users, rating := c.rating,
    rating_votes := c.rating_votes,
    category_avg_rating := c.category_avg_rating,
    competition_count := c.competition_count, rating_gap := c.rating_gap,
    demand_norm := logNorm c.users d.p95_users,
    competition_norm :=
      logNorm (c.competition_count : ℚ) d.p95_competition_count,
    rating_gap_norm := linearNorm c.rating_gap d.gap_cap,
    confidence_norm := logNorm c.rating_votes d.p95_votes }

/-- The `normalized` CTE of the opportunities query. -/
noncomputable def normalizedRows (s : Snapshot) (f : GlobalFilters) :
    List NormalizedRow :=
  (candidateSet s f).map (normalizeRow (distributionOf s f))

/-- Modelled from the spec: `OPPORTUNITIES_SCORE_SCALE` from the absent
constants module (spec default 100). -/
noncomputable def OPPORTUNITIES_SCORE_SCALE : ℝ := 100

/-- Modelled from the spec: `OPPORTUNITIES_SCORE_DEMAND_WEIGHT` from the
absent constants module (spec default 0.45). -/
noncomputable def OPPORTUNITIES_SCORE_DEMAND_WEIGHT : ℝ := 0.45

/-- Modelled from the spec: `OPPORTUNITIES_SCORE_GAP_WEIGHT` from the
absent constants module (spec default 0.35). -/
noncomputable def OPPORTUNITIES_SCORE_GAP_WEIGHT : ℝ := 0.35

/-- Modelled from the spec: `OPPORTUNITIES_SCORE_INVERSE_COMPETITION_WEIGHT`
from the absent constants module (spec default 0.20). -/
noncomputable def OPPORTUNITIES_SCORE_INVERSE_COMPETITION_WEIGHT : ℝ := 0.20

/-- One row of the `final` CTE (the scored candidate row); the
`rating_gap_norm` column is consumed into `gap_effective` and `score` and
not selected onward, exactly as in the query. -/
structure FinalRow where
  category_id : ℕ
  category_name : String
  extension_id : ℕ
  extension_name : String
  extension_url : Option String
  users : ℚ
  rating : ℚ
  rating_votes : ℚ
  category_avg_rating : ℚ
  competition_count : ℕ
  demand_norm : ℝ
  competition_norm : ℝ
  rating_gap : ℚ
  confidence_norm : ℝ
  gap_effective : ℝ
  score : ℝ

/-- The `final` CTE applied to one normalized row:
`gap_effective = rating_gap_norm * confidence_norm` and
`score = SCALE * (W_demand * demand_norm + W_gap * gap_effective
+ W_inv_comp * (1 - competition_norm))`. -/
noncomputable def finalOfNormalized (n : NormalizedRow) : FinalRow :=
  { category_id := n.category_id, category_name := n.category_name,
    extension_id := n.extension_id, extension_name := n.extension_name,
    extension_url := n.extension_url, users := n.users, rating := n.rating,
    rating_votes := n.rating_votes,
    category_avg_rating := n.category_avg_rating,
    competition_count := n.competition_count,
    demand_norm := n.demand_norm, competition_norm := n.competition_norm,
    rating_gap := n.rating_gap, confidence_norm := n.confidence_norm,
    gap_effective := (n.rating_gap_norm : ℝ) * n.confidence_norm,
    score :=
      OPPORTUNITIES_SCORE_SCALE *
        (OPPORTUNITIES_SCORE_DEMAND_WEIGHT * n.demand_norm +
          OPPORTUNITIES_SCORE_GAP_WEIGHT *
            ((n.rating_gap_norm : ℝ) * n.confidence_norm) +
          OPPORTUNITIES_SCORE_INVERSE_COMPETITION_WEIGHT *
            (1 - n.competition_norm)) }

/-- The `final` CTE of the opportunities query. -/
noncomputable def finalRows (s : Snapshot) (f : GlobalFilters) :
    List FinalRow :=
  (normalizedRows s f).map finalOfNormalized

/-- The opportunities sort keys accepted by `parseOpportunitiesParams`. -/
inductive SortKey
  | score
  | users
  | rating_gap
  | competition_count
deriving DecidableEq

/-- Sort direction. -/
inductive SortDir
  | asc
  | desc
deriving DecidableEq

/-- Directional strict comparison (`asc` puts smaller values first,
`desc` larger ones). -/
def dirLt {γ : Type} [LT γ] : SortDir → γ → γ → Prop
  | SortDir.asc, a, b => a < b
  | SortDir.desc, a, b => b < a

/-- The lexicographic comparison chain produced by `buildOrderByClause` in
`src/lib/opportunities/query.ts`: the requested key in the requested
direction, then the fixed secondary and tertiary keys (each `desc`), then
`extension_id asc`.  `chainLe k d r1 r2` states that `r1` may be placed at
or before `r2`. -/
def chainLe (k : SortKey) (d : SortDir) (r1 r2 : FinalRow) : Prop :=
  match k with
  | SortKey.users =>
    dirLt d r1.users r2.users ∨ (r1.users = r2.users ∧
      (r2.score < r1.score ∨ (r1.score = r2.score ∧
        (r2.rating_votes < r1.rating_votes ∨ (r1.rating_votes = r2.rating_votes ∧
          r1.extension_id ≤ r2.extension_id)))))
  | SortKey.rating_gap =>
    dirLt d r1.rating_gap r2.rating_gap ∨ (r1.rating_gap = r2.rating_gap ∧
      (r2.score < r1.score ∨ (r1.score = r2.score ∧
        (r2.users < r1.users ∨ (r1.users = r2.users ∧
          r1.extension_id ≤ r2.extension_id)))))
  | SortKey.competition_count =>
    dirLt d r1.competition_count r2.competition_count ∨
      (r1.competition_count = r2.competition_count ∧
      (r2.score < r1.score ∨ (r1.score = r2.score ∧
        (r2.users < r1.users ∨ (r1.users = r2.users ∧
          r1.extension_id ≤ r2.extension_id)))))
  | SortKey.score =>
    dirLt d r1.score r2.score ∨ (r1.score = r2.score ∧
      (r2.users < r1.users ∨ (r1.users = r2.users ∧
        (r2.rating_votes < r1.rating_votes ∨ (r1.rating_votes = r2.rating_votes ∧
          r1.extension_id ≤ r2.extension_id)))))

/-- Insertion step of the propositional insertion sort embedding
`order by` over rows whose score column is real-valued. -/
def insertRel {α : Type} (le : α → α → Prop) [DecidableRel le] (a : α) :
    List α → List α
  | [] => [a]
  | b :: t => if le a b then a :: b :: t else b :: insertRel le a t

/-- Propositional insertion sort. -/
def sortRel {α : Type} (le : α → α → Prop) [DecidableRel le] :
    List α → List α
  | [] => []
  | a :: t => insertRel le a (sortRel le t)

/-- The `order by` of the two opportunities selects, as a deterministic
sort by the `buildOrderByClause` chain. -/
noncomputable def orderRows (k : SortKey) (d : SortDir)
    (rows : List FinalRow) : List FinalRow :=
  @sortRel _ (chainLe k d) (fun a b => Classical.propDecidable (chainLe k d a b)) rows

/-- Validated opportunities table parameters
(`src/lib/opportunities/filters.ts`): `page ≥ 1`, bounded `limit`, one of
the four sort keys and a direction. -/
structure OpportunitiesParams where
  page : ℕ
  limit : ℕ
  sortBy : SortKey
  sortDir : SortDir

/-- Modelled from the spec: `DEFAULT_TABLE_PAGE_SIZE` from the absent
`@/lib/pagination/constants` module; the spec pagination scenario uses
page size 20.  No claim below depends on the numeric value. -/
def DEFAULT_TABLE_PAGE_SIZE : ℕ := 20

/-- The response shape of `getOpportunitiesData`
(`src/lib/opportunities/types.ts`). -/
structure OpportunitiesData where
  bubble_points : List FinalRow
  table_page : ℕ
  table_pageSize : ℕ
  table_total : ℕ
  table_rows : List FinalRow

/-- The embedding of `getOpportunitiesData`
(`src/lib/opportunities/query.ts`): both selects evaluate the same
`(select final.* order by chain limit params.limit)` subquery `scoped`
over the same snapshot (deterministic engine), the bubble output is
`scoped` itself, the table output is `scoped` with
`limit DEFAULT_TABLE_PAGE_SIZE offset (page - 1) * DEFAULT_TABLE_PAGE_SIZE`,
and `total` is the bubble row count. -/
noncomputable def getOpportunitiesData (s : Snapshot) (f : GlobalFilters)
    (p : OpportunitiesParams) : OpportunitiesData :=
  let scopedRows := (orderRows p.sortBy p.sortDir (finalRows s f)).take p.limit
  let offset := (p.page - 1) * DEFAULT_TABLE_PAGE_SIZE
  { bubble_points := scopedRows,
    table_page := p.page,
    table_pageSize := DEFAULT_TABLE_PAGE_SIZE,
    table_total := scopedRows.length,
    table_rows := (scopedRows.drop offset).take DEFAULT_TABLE_PAGE_SIZE }

/-- Numerator sum of `category_summary` in `src/lib/category/query.ts`
for one category: `sum(rating * rating_votes) filter (rating is not null
and rating_votes > 0)` over the member join rows (ratings of filtered
rows are never null). -/
def categoryWeightedSum (rows : List FilteredExt) : ℚ :=
  ((rows.filter (fun fe => decide (0 < fe.rating_votes))).map
    (fun fe => fe.rating * fe.rating_votes)).sum

/-- Denominator sum of `category_summary`. -/
def categoryWeightSum (rows : List FilteredExt) : ℚ :=
  ((rows.filter (fun fe => decide (0 < fe.rating_votes))).map
    (fun fe => fe.rating_votes)).sum

/-- The `category_stats` smoothed average of the category-explorer query
(`src/lib/category/query.ts`, prior weight hardcoded as `5000.0` there,
equal to the modelled constant). -/
def categoryStatsAvg (s : Snapshot) (f : GlobalFilters) (cid : ℕ) : ℚ :=
  smoothedAvg
    (categoryWeightedSum
      (categoryMemberRows s.links (filteredExtensions s f) cid))
    (categoryWeightSum
      (categoryMemberRows s.links (filteredExtensions s f) cid))
    (globalRating (filteredExtensions s f))

/-- One row of the `category_extensions_view` CTE of the category-explorer
query (`updated_at` and the scatter-only `users_log` projection are
omitted: no claim concerns them).  In the source `rating_gap` is
`case when fe.rating is null then null else cs.avg_rating - fe.rating end`;
the null branch is unreachable because `filtered_extensions` keeps only
rated rows, so the gap is the plain difference, with no zero floor. -/
structure CategoryViewRow where
  extension_id : ℕ
  extension_name : String
  extension_url : Option String
  users : ℚ
  rating : ℚ
  rating_votes : ℚ
  rating_gap : ℚ
deriving DecidableEq

/-- The `category_extensions_view` CTE: member links of the category
joined to `filtered_extensions` and back to `extensions`. -/
def categoryExtensionsView (s : Snapshot) (f : GlobalFilters) (cid : ℕ) :
    List CategoryViewRow :=
  (s.links.filter (fun ce => ce.category_id == cid)).flatMap (fun ce =>
    ((filteredExtensions s f).filter
        (fun fe => fe.id == ce.extension_id)).flatMap (fun fe =>
      (s.extensions.filter (fun e => e.id == ce.extension_id)).map (fun e =>
        { extension_id := e.id, extension_name := e.name,
          extension_url := e.url, users := fe.users, rating := fe.rating,
          rating_votes := fe.rating_votes,
          rating_gap := categoryStatsAvg s f cid - fe.rating })))

/-- The bucket index of the users histogram in the category-explorer
query: `users <= 0` maps to bucket 0, `users < 10` to bucket 1, otherwise
`floor(ln(users) / ln(10)) + 1`. -/
noncomputable def usersBucket (u : ℝ) : ℤ :=
  if u ≤ 0 then 0
  else if u < 10 then 1
  else ⌊Real.log u / Real.log 10⌋ + 1

/-- The `bucket_start` column of the users histogram:
`0` for bucket 0, else `power(10, bucket - 1)`. -/
noncomputable def bucketStart (b : ℤ) : ℝ :=
  if b = 0 then 0 else (10 : ℝ) ^ (b - 1)

/-- The `bucket_end` column of the users histogram:
`0` for bucket 0, else `power(10, bucket) - 1`. -/
noncomputable def bucketEnd (b : ℤ) : ℝ :=
  if b = 0 then 0 else (10 : ℝ) ^ b - 1

/-- The Record Filter of spec section 4.1 applied with no prior
exclusion: the spec-side reference point for the Top-Slice Excluder
refinement claim.  The predicates are those of spec section 4.1, which
coincide with the `filtered_extensions` `where` clause minus the
anti-join. -/
def specRecordFilter (s : Snapshot) (f : GlobalFilters) : List FilteredExt :=
  s.extensions.filterMap (keepFiltered f [])

/-- The spec section 4.2 ordering of the filtered set: `users`
descending, ties broken by the stable identity order. -/
def specUsersDesc (a b : FilteredExt) : Bool :=
  decide (b.users < a.users) || (a.users == b.users && decide (a.id ≤ b.id))

/-- Spec section 4.2 Top-Slice Excluder, written from the spec's words:
order the FILTERED set by users descending and remove the first
`ceil(N * exclude_top_pct / 100)` records, where `N` is the filtered-set
size.  This is the claimed behaviour, to be compared with the code's
`filtered_extensions`. -/
def specTopSliceSurvivors (s : Snapshot) (f : GlobalFilters) :
    List FilteredExt :=
  (sortOn specUsersDesc (specRecordFilter s f)).drop
    ((⌈((specRecordFilter s f).length : ℚ) * ((f.excludeTopPct : ℚ) / 100)⌉).toNat)

theorem insertOn_length {α : Type} (le : α → α → Bool) (a : α) (l : List α) :
    (insertOn le a l).length = l.length + 1 := by
  induction l with
  | nil => rfl
  | cons b t ih =>
    unfold insertOn
    split
    · rfl
    · simp [ih]

theorem sortOn_length {α : Type} (le : α → α → Bool) (l : List α) :
    (sortOn le l).length = l.length := by
  induction l with
  | nil => rfl
  | cons a t ih => simp [sortOn, insertOn_length, ih]

/-- The counterexample snapshot for the Top-Slice Excluder claim: one
unrated extension with the most users and one rated extension. -/
def c1snap : Snapshot :=
  { extensions :=
      [⟨1, "a", none, 100, none, 0, ""⟩, ⟨2, "b", none, 50, some 4, 10, ""⟩],
    categories := [], links := [] }

/-- Filters for the counterexample: exclude the top 50 percent. -/
def c1filters : GlobalFilters := ⟨0, none, 0, 5, 50, "", ""⟩

/-- The same filters with exclusion disabled. -/
def c1filters0 : GlobalFilters := ⟨0, none, 0, 5, 0, "", ""⟩

/-- C1 counterexample: the code's post-exclusion set keeps extension 2,
while the spec-side excluder (top `ceil(N * pct / 100)` of the FILTERED
set, `N` the filtered-set size) removes it: the filtered set is just
extension 2 (extension 1 is unrated), so `ceil(1 * 50 / 100) = 1` record —
extension 2 itself — should be removed, yet the code excludes from the raw
snapshot (`ceil(2 * 50 / 100) = 1` record, extension 1) before filtering. -/
theorem C1_counterexample :
    (filteredExtensions c1snap c1filters).map (fun fe => fe.id) = [2] ∧
    specTopSliceSurvivors c1snap c1filters = [] := by
  have hcount : excludeCount c1snap.extensions.length c1filters.excludeTopPct = 1 := by
    show excludeCount 2 50 = 1
    unfold excludeCount
    rw [if_neg (by decide)]
    norm_num
  have hexc : topExcluded c1snap c1filters = [1] := by
    unfold topExcluded
    rw [hcount]
    decide
  constructor
  · unfold filteredExtensions
    rw [hexc]
    decide
  · have hsf : specRecordFilter c1snap c1filters =
        [⟨2, "b", none, 50, 4, 10⟩] := by decide
    have hk : ((⌈(([(⟨2, "b", none, 50, 4, 10⟩ : FilteredExt)].length : ℚ)) *
        ((c1filters.excludeTopPct : ℚ) / 100)⌉).toNat) = 1 := by
      show ((⌈((1 : ℕ) : ℚ) * (((50 : ℤ) : ℚ) / 100)⌉).toNat) = 1
      have h12 : ⌈(1 : ℚ) / 2⌉ = 1 := by
        rw [Int.ceil_eq_iff]
        norm_num
      norm_num [h12]
    unfold specTopSliceSurvivors
    rw [hsf, hk]
    decide

/-- C1 amended: the excluder removes the first
`ceil(M * exclude_top_pct / 100)` records of the RAW snapshot (`M` the raw
snapshot size) ordered by users descending with identity tie-break, before
the record filter is applied; `exclude_top_pct = 0` removes nothing, no
surviving record is an excluded one, and the global prior, category
statistics, percentiles and candidate set are functions of the
post-exclusion set alone. -/
theorem C1_amended :
    (∀ (s : Snapshot) (f : GlobalFilters),
      (f.excludeTopPct ≤ 0 →
        filteredExtensions s f = s.extensions.filterMap (keepFiltered f [])) ∧
      (f.excludeTopPct ≤ 100 →
        (topExcluded s f).length =
          excludeCount s.extensions.length f.excludeTopPct) ∧
      (∀ fe ∈ filteredExtensions s f, fe.id ∉ topExcluded s f)) ∧
    (∀ (s1 s2 : Snapshot) (f1 f2 : GlobalFilters),
      filteredExtensions s1 f1 = filteredExtensions s2 f2 →
      s1.categories = s2.categories → s1.links = s2.links →
      globalRating (filteredExtensions s1 f1) =
          globalRating (filteredExtensions s2 f2) ∧
        categoryScores s1 f1 = categoryScores s2 f2 ∧
        distributionOf s1 f1 = distributionOf s2 f2 ∧
        candidateSet s1 f1 = candidateSet s2 f2) := by
  constructor
  · intro s f
    refine ⟨?_, ?_, ?_⟩
    · intro h0
      have hexc : topExcluded s f = [] := by
        unfold topExcluded excludeCount
        rw [if_pos h0]
        simp
      unfold filteredExtensions
      rw [hexc]
    · intro h100
      unfold topExcluded
      rw [List.length_map, List.length_take, sortOn_length]
      refine min_eq_left ?_
      unfold excludeCount
      split
      · exact Nat.zero_le _
      · rw [Int.toNat_le]
        refine Int.ceil_le.mpr ?_
        push_cast
        calc (s.extensions.length : ℚ) * ((f.excludeTopPct : ℚ) / 100)
            ≤ (s.extensions.length : ℚ) * 1 := by
              refine mul_le_mul_of_nonneg_left ?_ (by positivity)
              rw [div_le_one (by norm_num)]
              exact_mod_cast h100
          _ = (s.extensions.length : ℚ) := mul_one _
    · intro fe hfe
      unfold filteredExtensions at hfe
      rw [List.mem_filterMap] at hfe
      obtain ⟨b, _, hkeep⟩ := hfe
      unfold keepFiltered at hkeep
      split at hkeep
      · exact Option.noConfusion hkeep
      · split at hkeep
        · rename_i hcond
          simp only [Bool.and_eq_true, List.all_eq_true, bne_iff_ne] at hcond
          have hfeid : fe.id = b.id := by cases hkeep; rfl
          intro hmem
          exact absurd hfeid (hcond.1.1.1.1.1.1 fe.id hmem)
        · exact Option.noConfusion hkeep
  · intro s1 s2 f1 f2 hfe hcats hlinks
    have hcs : categoryScores s1 f1 = categoryScores s2 f2 := by
      unfold categoryScores
      rw [hcats, hlinks, hfe]
    have hcand : candidateSet s1 f1 = candidateSet s2 f2 := by
      unfold candidateSet
      rw [hlinks, hfe, hcs]
    have hd : distributionOf s1 f1 = distributionOf s2 f2 := by
      unfold distributionOf
      rw [hcand, hcs]
    exact ⟨by rw [hfe], hcs, hd, hcand⟩

/-- C1 witness: the amended theorem evaluated on the counterexample
snapshot: disabling exclusion is a no-op, the excluded count is
`excludeCount`, surviving record 2 is not excluded, and the aggregates are
congruent in the post-exclusion set. -/
theorem C1_witness :
    (filteredExtensions c1snap c1filters0 =
        c1snap.extensions.filterMap (keepFiltered c1filters0 [])) ∧
    ((topExcluded c1snap c1filters).length =
        excludeCount c1snap.extensions.length c1filters.excludeTopPct) ∧
    ((⟨2, "b", none, 50, 4, 10⟩ : FilteredExt).id ∉
        topExcluded c1snap c1filters0) ∧
    categoryScores c1snap c1filters = categoryScores c1snap c1filters :=
  ⟨(C1_amended.1 c1snap c1filters0).1 (by decide),
   (C1_amended.1 c1snap c1filters).2.1 (by decide),
   (C1_amended.1 c1snap c1filters0).2.2 ⟨2, "b", none, 50, 4, 10⟩ (by decide),
   ((C1_amended.2 c1snap c1snap c1filters c1filters) rfl rfl rfl).2.1⟩

theorem linearNorm_zero (p : Option ℚ) : linearNorm 0 p = 0 := by
  unfold linearNorm
  split
  · simp
  · rfl

/-- The counterexample snapshot for the rating-gap claim: in one category,
a 5-star extension with no votes next to a 1-star extension with all the
votes, so the smoothed category average (1) lies far below the first
extension's rating. -/
def c2snap : Snapshot :=
  { extensions :=
      [⟨1, "a", none, 1, some 5, 0, ""⟩, ⟨2, "b", none, 1, some 1, 100, ""⟩],
    categories := [⟨1, "c"⟩],
    links := [⟨1, 1⟩, ⟨1, 2⟩] }

/-- Default filters (no exclusion). -/
def c2filters : GlobalFilters := ⟨0, none, 0, 5, 0, "", ""⟩

theorem c2_filtered_eval : filteredExtensions c2snap c2filters =
    [⟨1, "a", none, 1, 5, 0⟩, ⟨2, "b", none, 1, 1, 100⟩] := by decide

theorem c2_global_eval : globalRating (filteredExtensions c2snap c2filters) = 1 := by
  rw [c2_filtered_eval]
  have hs : globalWeightSum
      [⟨1, "a", none, 1, 5, 0⟩, ⟨2, "b", none, 1, 1, 100⟩] = 100 := by
    norm_num [globalWeightSum]
  have hw : globalWeightedSum
      [⟨1, "a", none, 1, 5, 0⟩, ⟨2, "b", none, 1, 1, 100⟩] = 100 := by
    norm_num [globalWeightedSum]
  unfold globalRating
  rw [hs, hw]
  norm_num

theorem c2_avg_eval : categoryStatsAvg c2snap c2filters 1 = 1 := by
  unfold categoryStatsAvg
  rw [c2_global_eval, c2_filtered_eval]
  have hm : categoryMemberRows c2snap.links
      [⟨1, "a", none, 1, 5, 0⟩, ⟨2, "b", none, 1, 1, 100⟩] 1 =
      [⟨1, "a", none, 1, 5, 0⟩, ⟨2, "b", none, 1, 1, 100⟩] := by decide
  rw [hm]
  have hws : categoryWeightedSum
      [⟨1, "a", none, 1, 5, 0⟩, ⟨2, "b", none, 1, 1, 100⟩] = 100 := by
    norm_num [categoryWeightedSum]
  have hwt : categoryWeightSum
      [⟨1, "a", none, 1, 5, 0⟩, ⟨2, "b", none, 1, 1, 100⟩] = 100 := by
    norm_num [categoryWeightSum]
  rw [hws, hwt]
  unfold smoothedAvg OPPORTUNITIES_BAYES_PRIOR_WEIGHT
  rw [if_pos (by norm_num)]
  norm_num

/-- C2 counterexample: in the category-explorer row set the rating gap of
extension 1 is `-4` (category average 1, own rating 5): the pipeline
produces a candidate row whose `rating_gap` is negative and differs from
`max(category_avg_rating - rating, 0) = 0`. -/
theorem C2_counterexample :
    (categoryExtensionsView c2snap c2filters 1).map (fun r => r.rating_gap) =
      [-4, 0] ∧ ¬ (0 ≤ (-4 : ℚ)) := by
  constructor
  · have h1 : (categoryExtensionsView c2snap c2filters 1).map
        (fun r => r.rating_gap) = [1 - 5, 1 - 1] := by
      unfold categoryExtensionsView
      rw [c2_avg_eval, c2_filtered_eval]
      rfl
    rw [h1]
    norm_num
  · norm_num

/-- C2 amended: in the OPPORTUNITIES candidate set every row's rating gap
is `max(category_avg_rating - rating, 0)`, hence never negative, and a row
rated at or above its category average scores `gap_effective = 0`; in the
category-explorer row set, by contrast, the rating gap is the raw
difference `category_avg_rating - rating`, which may be negative. -/
theorem C2_amended :
    ∀ (s : Snapshot) (f : GlobalFilters) (cid : ℕ),
      (∀ row ∈ candidateSet s f,
        row.rating_gap = max (row.category_avg_rating - row.rating) 0 ∧
          0 ≤ row.rating_gap) ∧
      (∀ row ∈ candidateSet s f, row.category_avg_rating ≤ row.rating →
        (finalOfNormalized (normalizeRow (distributionOf s f) row)).gap_effective
            = 0 ∧
          finalOfNormalized (normalizeRow (distributionOf s f) row) ∈
            finalRows s f) ∧
      (∀ row ∈ categoryExtensionsView s f cid,
        row.rating_gap = categoryStatsAvg s f cid - row.rating) := by
  have hgap : ∀ (s : Snapshot) (f : GlobalFilters), ∀ row ∈ candidateSet s f,
      row.rating_gap = max (row.category_avg_rating - row.rating) 0 := by
    intro s f row hrow
    unfold candidateSet candidateSetList at hrow
    rw [List.mem_flatMap] at hrow
    obtain ⟨fe, _, hrow⟩ := hrow
    rw [List.mem_flatMap] at hrow
    obtain ⟨ce, _, hrow⟩ := hrow
    rw [List.mem_map] at hrow
    obtain ⟨cs, _, hrow⟩ := hrow
    subst hrow
    rfl
  intro s f cid
  refine ⟨fun row hrow => ⟨hgap s f row hrow, ?_⟩, fun row hrow hr => ?_, ?_⟩
  · rw [hgap s f row hrow]
    exact le_max_right _ _
  · have h0 : row.rating_gap = 0 := by
      rw [hgap s f row hrow]
      exact max_eq_right (sub_nonpos.mpr hr)
    constructor
    · show ((linearNorm row.rating_gap (distributionOf s f).gap_cap : ℚ) : ℝ) *
          logNorm row.rating_votes (distributionOf s f).p95_votes = 0
      rw [h0, linearNorm_zero]
      norm_num
    · exact List.mem_map_of_mem _ (List.mem_map_of_mem _ hrow)
  · intro row hrow
    unfold categoryExtensionsView at hrow
    rw [List.mem_flatMap] at hrow
    obtain ⟨ce, _, hrow⟩ := hrow
    rw [List.mem_flatMap] at hrow
    obtain ⟨fe, _, hrow⟩ := hrow
    rw [List.mem_map] at hrow
    obtain ⟨e, _, hrow⟩ := hrow
    subst hrow
    rfl

/-- C2 witness: on the counterexample snapshot, the candidate-set row of
extension 1 (rated 5, category average 1) has the zero-floored gap and a
zero effective gap. -/
theorem c2_aggregates_eval :
    categoryAggregatesList c2snap.categories c2snap.links
      (filteredExtensions c2snap c2filters) = [⟨1, "c", 2, 100, 100⟩] := by
  have h0 : categoryAggregatesList c2snap.categories c2snap.links
      (filteredExtensions c2snap c2filters) =
      [⟨1, "c", 2,
        categoryWeightedSum (categoryMemberRows c2snap.links
          (filteredExtensions c2snap c2filters) 1),
        categoryWeightSum (categoryMemberRows c2snap.links
          (filteredExtensions c2snap c2filters) 1)⟩] := by rfl
  have hm : categoryMemberRows c2snap.links
      [⟨1, "a", none, 1, 5, 0⟩, ⟨2, "b", none, 1, 1, 100⟩] 1 =
      [⟨1, "a", none, 1, 5, 0⟩, ⟨2, "b", none, 1, 1, 100⟩] := by decide
  have hws : categoryWeightedSum
      [⟨1, "a", none, 1, 5, 0⟩, ⟨2, "b", none, 1, 1, 100⟩] = 100 := by
    norm_num [categoryWeightedSum]
  have hwt : categoryWeightSum
      [⟨1, "a", none, 1, 5, 0⟩, ⟨2, "b", none, 1, 1, 100⟩] = 100 := by
    norm_num [categoryWeightSum]
  rw [h0, c2_filtered_eval, hm, hws, hwt]

theorem c2_scores_eval :
    categoryScores c2snap c2filters = [⟨1, "c", 2, 1⟩] := by
  unfold categoryScores categoryScoresList
  rw [c2_aggregates_eval, c2_global_eval]
  have hsm : smoothedAvg 100 100 1 = 1 := by
    unfold smoothedAvg OPPORTUNITIES_BAYES_PRIOR_WEIGHT
    rw [if_pos (by norm_num)]
    norm_num
  show [(⟨1, "c", 2, smoothedAvg 100 100 1⟩ : CategoryScore)] = _
  rw [hsm]

theorem c2_candidates_eval :
    candidateSet c2snap c2filters =
      [⟨1, "c", 1, "a", none, 1, 5, 0, 1, 2, 0⟩,
       ⟨1, "c", 2, "b", none, 1, 1, 100, 1, 2, 0⟩] := by
  have h0 : candidateSet c2snap c2filters =
      [⟨1, "c", 1, "a", none, 1, 5, 0, 1, 2, max ((1 : ℚ) - 5) 0⟩,
       ⟨1, "c", 2, "b", none, 1, 1, 100, 1, 2, max ((1 : ℚ) - 1) 0⟩] := by
    unfold candidateSet
    rw [c2_filtered_eval, c2_scores_eval]
    rfl
  have hg1 : max ((1 : ℚ) - 5) 0 = 0 := by norm_num
  have hg2 : max ((1 : ℚ) - 1) 0 = 0 := by norm_num
  rw [h0, hg1, hg2]

/-- C2 witness: on the counterexample snapshot, the opportunities
candidate row of extension 1 (rated 5, category average 1) has the
zero-floored gap, a non-negative gap, and zero effective gap. -/
theorem C2_witness :
    ((⟨1, "c", 1, "a", none, 1, 5, 0, 1, 2, 0⟩ : CandidateRow).rating_gap =
        max ((⟨1, "c", 1, "a", none, 1, 5, 0, 1, 2, 0⟩ :
            CandidateRow).category_avg_rating -
          (⟨1, "c", 1, "a", none, 1, 5, 0, 1, 2, 0⟩ : CandidateRow).rating) 0 ∧
      (0 : ℚ) ≤ (⟨1, "c", 1, "a", none, 1, 5, 0, 1, 2, 0⟩ :
          CandidateRow).rating_gap) ∧
    (finalOfNormalized (normalizeRow (distributionOf c2snap c2filters)
        ⟨1, "c", 1, "a", none, 1, 5, 0, 1, 2, 0⟩)).gap_effective = 0 := by
  have hmem : (⟨1, "c", 1, "a", none, 1, 5, 0, 1, 2, 0⟩ : CandidateRow) ∈
      candidateSet c2snap c2filters := by
    rw [c2_candidates_eval]
    exact List.mem_cons_self _ _
  obtain ⟨h1, h2, _⟩ := C2_amended c2snap c2filters 1
  exact ⟨h1 _ hmem, (h2 _ hmem (by norm_num)).1⟩

theorem dirLt_resolve {γ : Type} [LinearOrder γ] {d : SortDir} {x y : γ}
    {T1 T2 : Prop} (h1 : dirLt d x y ∨ (x = y ∧ T1))
    (h2 : dirLt d y x ∨ (y = x ∧ T2)) : T1 ∧ T2 := by
  rcases h1 with h1 | ⟨e1, t1⟩
  · rcases h2 with h2 | ⟨e2, t2⟩
    · cases d
      · exact absurd h1 (lt_asymm h2)
      · exact absurd h1 (lt_asymm h2)
    · subst e2
      cases d
      · exact absurd h1 (lt_irrefl _)
      · exact absurd h1 (lt_irrefl _)
  · rcases h2 with h2 | ⟨e2, t2⟩
    · subst e1
      cases d
      · exact absurd h2 (lt_irrefl _)
      · exact absurd h2 (lt_irrefl _)
    · exact ⟨t1, t2⟩

theorem tailAntisym {γ δ : Type} [LinearOrder γ] [LinearOrder δ]
    {u1 u2 : γ} {v1 v2 : δ} {i1 i2 : ℕ}
    (h1 : u2 < u1 ∨ (u1 = u2 ∧ (v2 < v1 ∨ (v1 = v2 ∧ i1 ≤ i2))))
    (h2 : u1 < u2 ∨ (u2 = u1 ∧ (v1 < v2 ∨ (v2 = v1 ∧ i2 ≤ i1)))) :
    i1 = i2 := by
  rcases h1 with h1 | ⟨e1, h1⟩
  · rcases h2 with h2 | ⟨e2, h2⟩
    · exact absurd h1 (lt_asymm h2)
    · subst e2
      exact absurd h1 (lt_irrefl _)
  · rcases h2 with h2 | ⟨e2, h2⟩
    · subst e1
      exact absurd h2 (lt_irrefl _)
    · rcases h1 with h1 | ⟨f1, h1⟩
      · rcases h2 with h2 | ⟨f2, h2⟩
        · exact absurd h1 (lt_asymm h2)
        · subst f2
          exact absurd h1 (lt_irrefl _)
      · rcases h2 with h2 | ⟨f2, h2⟩
        · subst f1
          exact absurd h2 (lt_irrefl _)
        · exact le_antisymm h1 h2

/-- The counterexample snapshot for the total-order claim: a single rated
extension listed in two categories with identical membership, producing
two distinct candidate rows that agree on every ranking key. -/
def c3snap : Snapshot :=
  { extensions := [⟨1, "e", none, 3, some 4, 10, ""⟩],
    categories := [⟨1, "A"⟩, ⟨2, "B"⟩],
    links := [⟨1, 1⟩, ⟨2, 1⟩] }

/-- Default filters (no exclusion). -/
def c3filters : GlobalFilters := ⟨0, none, 0, 5, 0, "", ""⟩

theorem c3_filtered_eval : filteredExtensions c3snap c3filters =
    [⟨1, "e", none, 3, 4, 10⟩] := by decide

theorem c3_global_eval :
    globalRating (filteredExtensions c3snap c3filters) = 4 := by
  rw [c3_filtered_eval]
  have hs : globalWeightSum [⟨1, "e", none, 3, 4, 10⟩] = 10 := by
    norm_num [globalWeightSum]
  have hw : globalWeightedSum [⟨1, "e", none, 3, 4, 10⟩] = 40 := by
    norm_num [globalWeightedSum]
  unfold globalRating
  rw [hs, hw]
  norm_num

theorem c3_aggregates_eval :
    categoryAggregatesList c3snap.categories c3snap.links
      (filteredExtensions c3snap c3filters) =
      [⟨1, "A", 1, 40, 10⟩, ⟨2, "B", 1, 40, 10⟩] := by
  have h0 : categoryAggregatesList c3snap.categories c3snap.links
      (filteredExtensions c3snap c3filters) =
      [⟨1, "A", 1,
        categoryWeightedSum (categoryMemberRows c3snap.links
          (filteredExtensions c3snap c3filters) 1),
        categoryWeightSum (categoryMemberRows c3snap.links
          (filteredExtensions c3snap c3filters) 1)⟩,
       ⟨2, "B", 1,
        categoryWeightedSum (categoryMemberRows c3snap.links
          (filteredExtensions c3snap c3filters) 2),
        categoryWeightSum (categoryMemberRows c3snap.links
          (filteredExtensions c3snap c3filters) 2)⟩] := by rfl
  have hm1 : categoryMemberRows c3snap.links [⟨1, "e", none, 3, 4, 10⟩] 1 =
      [⟨1, "e", none, 3, 4, 10⟩] := by decide
  have hm2 : categoryMemberRows c3snap.links [⟨1, "e", none, 3, 4, 10⟩] 2 =
      [⟨1, "e", none, 3, 4, 10⟩] := by decide
  have hws : categoryWeightedSum [⟨1, "e", none, 3, 4, 10⟩] = 40 := by
    norm_num [categoryWeightedSum]
  have hwt : categoryWeightSum [⟨1, "e", none, 3, 4, 10⟩] = 10 := by
    norm_num [categoryWeightSum]
  rw [h0, c3_filtered_eval, hm1, hm2, hws, hwt]

theorem c3_scores_eval : categoryScores c3snap c3filters =
    [⟨1, "A", 1, 4⟩, ⟨2, "B", 1, 4⟩] := by
  unfold categoryScores categoryScoresList
  rw [c3_aggregates_eval, c3_global_eval]
  have hsm : smoothedAvg 40 10 4 = 4 := by
    unfold smoothedAvg OPPORTUNITIES_BAYES_PRIOR_WEIGHT
    rw [if_pos (by norm_num)]
    norm_num
  show [(⟨1, "A", 1, smoothedAvg 40 10 4⟩ : CategoryScore),
    ⟨2, "B", 1, smoothedAvg 40 10 4⟩] = _
  rw [hsm]

/-- First candidate row of the counterexample (category A). -/
def c3cand1 : CandidateRow := ⟨1, "A", 1, "e", none, 3, 4, 10, 4, 1, 0⟩

/-- Second candidate row of the counterexample (category B). -/
def c3cand2 : CandidateRow := ⟨2, "B", 1, "e", none, 3, 4, 10, 4, 1, 0⟩

theorem c3_candidates_eval :
    candidateSet c3snap c3filters = [c3cand1, c3cand2] := by
  have h0 : candidateSet c3snap c3filters =
      [⟨1, "A", 1, "e", none, 3, 4, 10, 4, 1, max ((4 : ℚ) - 4) 0⟩,
       ⟨2, "B", 1, "e", none, 3, 4, 10, 4, 1, max ((4 : ℚ) - 4) 0⟩] := by
    unfold candidateSet
    rw [c3_filtered_eval, c3_scores_eval]
    rfl
  have hg : max ((4 : ℚ) - 4) 0 = 0 := by norm_num
  rw [h0, hg]
  rfl

/-- First scored row of the counterexample. -/
noncomputable def c3row1 : FinalRow :=
  finalOfNormalized (normalizeRow (distributionOf c3snap c3filters) c3cand1)

/-- Second scored row of the counterexample. -/
noncomputable def c3row2 : FinalRow :=
  finalOfNormalized (normalizeRow (distributionOf c3snap c3filters) c3cand2)

theorem c3_final_eval : finalRows c3snap c3filters = [c3row1, c3row2] := by
  unfold finalRows normalizedRows
  rw [c3_candidates_eval]
  rfl

/-- C3 counterexample: the pipeline output on the counterexample snapshot
contains two distinct rows (same extension in two categories) on which the
score comparison chain ties in both directions — the chain is not a total
order on the candidate rows, because it ends in `extension_id`, which is
not a candidate identity. -/
theorem C3_counterexample :
    c3row1 ∈ finalRows c3snap c3filters ∧
    c3row2 ∈ finalRows c3snap c3filters ∧
    c3row1 ≠ c3row2 ∧
    chainLe SortKey.score SortDir.desc c3row1 c3row2 ∧
    chainLe SortKey.score SortDir.desc c3row2 c3row1 := by
  refine ⟨?_, ?_, ?_, ?_, ?_⟩
  · rw [c3_final_eval]
    exact List.mem_cons_self _ _
  · rw [c3_final_eval]
    exact List.mem_cons_of_mem _ (List.mem_cons_self _ _)
  · intro h
    exact absurd (congrArg FinalRow.category_id h) (by decide)
  · exact Or.inr ⟨rfl, Or.inr ⟨rfl, Or.inr ⟨rfl, le_refl _⟩⟩⟩
  · exact Or.inr ⟨rfl, Or.inr ⟨rfl, Or.inr ⟨rfl, le_refl _⟩⟩⟩

/-- C3 amended: for every sort key and direction the comparison chain is
antisymmetric up to the extension identity: two rows that tie in both
directions carry the same `extension_id`.  Distinct candidate rows sharing
an extension (one extension in several categories) may still tie, so the
chain is a total preorder but not a total order on candidate rows; row
order among such duplicates is not pinned by the chain. -/
theorem C3_amended :
    ∀ (k : SortKey) (d : SortDir) (r1 r2 : FinalRow),
      chainLe k d r1 r2 → chainLe k d r2 r1 →
      r1.extension_id = r2.extension_id := by
  intro k d r1 r2 h1 h2
  cases k
  · obtain ⟨t1, t2⟩ := dirLt_resolve h1 h2
    exact tailAntisym t1 t2
  · obtain ⟨t1, t2⟩ := dirLt_resolve h1 h2
    exact tailAntisym t1 t2
  · obtain ⟨t1, t2⟩ := dirLt_resolve h1 h2
    exact tailAntisym t1 t2
  · obtain ⟨t1, t2⟩ := dirLt_resolve h1 h2
    exact tailAntisym t1 t2

/-- C3 witness: the amended antisymmetry applied to the two tied rows of
the counterexample snapshot: they indeed share `extension_id`. -/
theorem C3_witness : c3row1.extension_id = c3row2.extension_id :=
  C3_amended SortKey.score SortDir.desc c3row1 c3row2
    (Or.inr ⟨rfl, Or.inr ⟨rfl, Or.inr ⟨rfl, le_refl _⟩⟩⟩)
    (Or.inr ⟨rfl, Or.inr ⟨rfl, Or.inr ⟨rfl, le_refl _⟩⟩⟩)

/-- C4: for every snapshot, filter set and table parameters, the
opportunities table rows are exactly the slice
`[offset, offset + page_size)` of the bubble set, and the bubble set is
the limit-bounded ordered candidate list — pagination is a slice of the
bubble set, not an independent query (both selects evaluate the same
ordered `scoped` materialization in the deterministic embedding). -/
theorem C4_theorem :
    ∀ (s : Snapshot) (f : GlobalFilters) (p : OpportunitiesParams),
      (getOpportunitiesData s f p).bubble_points =
        (orderRows p.sortBy p.sortDir (finalRows s f)).take p.limit ∧
      (getOpportunitiesData s f p).table_rows =
        (((getOpportunitiesData s f p).bubble_points).drop
          ((p.page - 1) * DEFAULT_TABLE_PAGE_SIZE)).take
          DEFAULT_TABLE_PAGE_SIZE := by
  intro s f p
  exact ⟨rfl, rfl⟩

/-- C10: the reported `table.total` equals the size of the limit-bounded
bubble set (hence `total ≤ limit`, not the count of all candidate rows),
and paging past the bubble set yields an empty page. -/
theorem C10_theorem :
    ∀ (s : Snapshot) (f : GlobalFilters) (p : OpportunitiesParams),
      (getOpportunitiesData s f p).table_total =
        (getOpportunitiesData s f p).bubble_points.length ∧
      (getOpportunitiesData s f p).table_total ≤ p.limit ∧
      ((getOpportunitiesData s f p).table_total ≤
          (p.page - 1) * DEFAULT_TABLE_PAGE_SIZE →
        (getOpportunitiesData s f p).table_rows = []) := by
  intro s f p
  refine ⟨rfl, ?_, ?_⟩
  · show ((orderRows p.sortBy p.sortDir (finalRows s f)).take p.limit).length
        ≤ p.limit
    rw [List.length_take]
    exact min_le_left _ _
  · intro h
    show (((orderRows p.sortBy p.sortDir (finalRows s f)).take p.limit).drop
        ((p.page - 1) * DEFAULT_TABLE_PAGE_SIZE)).take
        DEFAULT_TABLE_PAGE_SIZE = []
    rw [List.drop_eq_nil_of_le h]
    rfl

/-- The empty snapshot used to witness the empty-page behaviour. -/
def c10snap : Snapshot := ⟨[], [], []⟩

/-- Default filters for the C10 witness. -/
def c10filters : GlobalFilters := ⟨0, none, 0, 5, 0, "", ""⟩

/-- Table parameters for the C10 witness: page 2 over a limit-100 set. -/
def c10params : OpportunitiesParams := ⟨2, 100, SortKey.score, SortDir.desc⟩

/-- C10 witness: on an empty snapshot the bubble set is empty, so page 2
is past the bubble set and comes back empty. -/
theorem C10_witness :
    (getOpportunitiesData c10snap c10filters c10params).table_total ≤
        (c10params.page - 1) * DEFAULT_TABLE_PAGE_SIZE ∧
      (getOpportunitiesData c10snap c10filters c10params).table_rows = [] :=
  ⟨by decide, (C10_theorem c10snap c10filters c10params).2.2 (by decide)⟩

/-- C5: every scored row of the `final` CTE satisfies
`gap_effective = rating_gap_norm * confidence_norm` and
`score = 100 * (0.45 * demand_norm + 0.35 * gap_effective
+ 0.20 * (1 - competition_norm))` with the configured weights. -/
theorem C5_theorem :
    ∀ (s : Snapshot) (f : GlobalFilters), ∀ n ∈ normalizedRows s f,
      finalOfNormalized n ∈ finalRows s f ∧
      (finalOfNormalized n).gap_effective =
        (n.rating_gap_norm : ℝ) * n.confidence_norm ∧
      (finalOfNormalized n).score =
        100 * (0.45 * n.demand_norm +
          0.35 * ((n.rating_gap_norm : ℝ) * n.confidence_norm) +
          0.20 * (1 - n.competition_norm)) := by
  intro s f n hn
  exact ⟨List.mem_map_of_mem _ hn, rfl, rfl⟩

/-- C5 witness: the score decomposition holds for the concrete normalized
row of candidate `c3cand1` on the two-category snapshot. -/
theorem C5_witness :
    finalOfNormalized (normalizeRow (distributionOf c3snap c3filters) c3cand1)
        ∈ finalRows c3snap c3filters ∧
      (finalOfNormalized (normalizeRow (distributionOf c3snap c3filters)
          c3cand1)).gap_effective =
        ((normalizeRow (distributionOf c3snap c3filters)
            c3cand1).rating_gap_norm : ℝ) *
          (normalizeRow (distributionOf c3snap c3filters)
            c3cand1).confidence_norm ∧
      (finalOfNormalized (normalizeRow (distributionOf c3snap c3filters)
          c3cand1)).score =
        100 * (0.45 * (normalizeRow (distributionOf c3snap c3filters)
            c3cand1).demand_norm +
          0.35 * (((normalizeRow (distributionOf c3snap c3filters)
              c3cand1).rating_gap_norm : ℝ) *
            (normalizeRow (distributionOf c3snap c3filters)
              c3cand1).confidence_norm) +
          0.20 * (1 - (normalizeRow (distributionOf c3snap c3filters)
            c3cand1).competition_norm)) := by
  have hmem : normalizeRow (distributionOf c3snap c3filters) c3cand1 ∈
      normalizedRows c3snap c3filters := by
    unfold normalizedRows
    rw [c3_candidates_eval]
    exact List.mem_map_of_mem _ (List.mem_cons_self _ _)
  exact C5_theorem c3snap c3filters _ hmem

/-- C6: the log normalization is monotone in the value for a fixed
positive ceiling, always lies in `[0, 1]`, and is `0` at ceiling `0`; the
linear rating-gap normalization shares the bounds and monotonicity and
saturates at `1` for gaps at or beyond the cap. -/
theorem C6_theorem :
    (∀ (v1 v2 p : ℚ), 0 ≤ v1 → v1 ≤ v2 → 0 < p →
      logNorm v1 (some p) ≤ logNorm v2 (some p)) ∧
    (∀ (v : ℚ) (p : Option ℚ), 0 ≤ logNorm v p ∧ logNorm v p ≤ 1) ∧
    (∀ v : ℚ, logNorm v (some 0) = 0) ∧
    (∀ (g1 g2 c : ℚ), 0 ≤ g1 → g1 ≤ g2 → 0 < c →
      linearNorm g1 (some c) ≤ linearNorm g2 (some c)) ∧
    (∀ (g : ℚ) (p : Option ℚ), 0 ≤ linearNorm g p ∧ linearNorm g p ≤ 1) ∧
    (∀ (g c : ℚ), 0 < c → c ≤ g → linearNorm g (some c) = 1) := by
  refine ⟨?_, ?_, ?_, ?_, ?_, ?_⟩
  · intro v1 v2 p h0 h12 hp
    unfold logNorm
    simp only [Option.getD_some]
    rw [if_pos hp, if_pos hp]
    have hlogp : 0 < Real.log ((p : ℚ) + 1 : ℝ) := by
      refine Real.log_pos ?_
      have : (0 : ℝ) < (p : ℝ) := by exact_mod_cast hp
      linarith
    refine min_le_min (max_le_max ?_ le_rfl) le_rfl
    rw [div_le_div_iff_of_pos_right hlogp]
    have h1 : (0 : ℝ) < (v1 : ℝ) + 1 := by
      have : (0 : ℝ) ≤ (v1 : ℝ) := by exact_mod_cast h0
      linarith
    have h2 : (0 : ℝ) < (v2 : ℝ) + 1 := by
      have : (v1 : ℝ) ≤ (v2 : ℝ) := by exact_mod_cast h12
      linarith
    rw [Real.log_le_log_iff h1 h2]
    have : (v1 : ℝ) ≤ (v2 : ℝ) := by exact_mod_cast h12
    linarith
  · intro v p
    unfold logNorm
    split
    · exact ⟨le_min (le_max_right _ _) zero_le_one, min_le_right _ _⟩
    · exact ⟨le_refl 0, zero_le_one⟩
  · intro v
    unfold logNorm
    simp only [Option.getD_some]
    rw [if_neg (lt_irrefl 0)]
  · intro g1 g2 c h0 h12 hc
    unfold linearNorm
    simp only [Option.getD_some]
    rw [if_pos hc, if_pos hc]
    refine min_le_min (max_le_max ?_ le_rfl) le_rfl
    rw [div_le_div_iff_of_pos_right hc]
    exact h12
  · intro g p
    unfold linearNorm
    split
    · exact ⟨le_min (le_max_right _ _) zero_le_one, min_le_right _ _⟩
    · exact ⟨le_refl 0, zero_le_one⟩
  · intro g c hc hg
    unfold linearNorm
    simp only [Option.getD_some]
    rw [if_pos hc]
    have h1 : (1 : ℚ) ≤ g / c := (one_le_div hc).mpr hg
    rw [max_eq_left (le_trans zero_le_one h1), min_eq_right h1]

/-- C6 witness: the normalization properties evaluated at concrete
values: monotone step `1 ≤ 3` below ceiling `2`, bounds at `(7, 3)`, zero
ceiling at `5`, linear monotone step `(1, 2)` below cap `4`, linear bounds
at `(3, 2)`, and saturation of a gap `5` at cap `2`. -/
theorem C6_witness :
    logNorm 1 (some 2) ≤ logNorm 3 (some 2) ∧
    (0 ≤ logNorm 7 (some 3) ∧ logNorm 7 (some 3) ≤ 1) ∧
    logNorm 5 (some 0) = 0 ∧
    linearNorm 1 (some 4) ≤ linearNorm 2 (some 4) ∧
    (0 ≤ linearNorm 3 (some 2) ∧ linearNorm 3 (some 2) ≤ 1) ∧
    linearNorm 5 (some 2) = 1 :=
  ⟨C6_theorem.1 1 3 2 (by norm_num) (by norm_num) (by norm_num),
   C6_theorem.2.1 7 (some 3),
   C6_theorem.2.2.1 5,
   C6_theorem.2.2.2.1 1 2 4 (by norm_num) (by norm_num) (by norm_num),
   C6_theorem.2.2.2.2.1 3 (some 2),
   C6_theorem.2.2.2.2.2 5 2 (by norm_num) (by norm_num)⟩

theorem filter_pos_votes_sum (fes : List FilteredExt) (g : FilteredExt → ℚ)
    (hg : ∀ fe, fe.rating_votes = 0 → g fe = 0)
    (hv : ∀ fe ∈ fes, 0 ≤ fe.rating_votes) :
    ((fes.filter (fun fe => decide (0 < fe.rating_votes))).map g).sum =
      (fes.map g).sum := by
  induction fes with
  | nil => rfl
  | cons a t ih =>
    have ht : ∀ fe ∈ t, 0 ≤ fe.rating_votes :=
      fun fe hfe => hv fe (List.mem_cons_of_mem _ hfe)
    by_cases ha : 0 < a.rating_votes
    · rw [List.filter_cons_of_pos (by simpa using ha)]
      simp [ih ht]
    · have ha0 : a.rating_votes = 0 :=
        le_antisymm (not_lt.mp ha) (hv a (List.mem_cons_self a t))
      rw [List.filter_cons_of_neg (by simpa using ha)]
      simp [ih ht, hg a ha0]

theorem globalWeightSum_nonneg (fes : List FilteredExt) :
    0 ≤ globalWeightSum fes := by
  unfold globalWeightSum
  refine List.sum_nonneg ?_
  intro x hx
  rw [List.mem_map] at hx
  obtain ⟨fe, hfe, hx⟩ := hx
  rw [List.mem_filter] at hfe
  subst hx
  exact le_of_lt (by simpa using hfe.2)

/-- C7: on vote counts that are non-negative (as in any real snapshot),
the global prior is the vote-weighted average rating
`Σ(rating * votes) / Σ(votes)` (with `x / 0 = 0` covering the zero-weight
population), and every surviving category's smoothed average is the
Bayesian blend with prior weight `K = 5000`, collapsing to exactly the
global average when the category has zero weighted votes. -/
theorem C7_theorem :
    ∀ (s : Snapshot) (f : GlobalFilters),
      (∀ fe ∈ filteredExtensions s f, 0 ≤ fe.rating_votes) →
      globalRating (filteredExtensions s f) =
        ((filteredExtensions s f).map
          (fun fe => fe.rating * fe.rating_votes)).sum /
          ((filteredExtensions s f).map (fun fe => fe.rating_votes)).sum ∧
      (∀ row ∈ categoryScores s f, ∃ ca,
        ca ∈ categoryAggregates s f ∧ 0 < ca.competition_count ∧
        row.category_avg_rating =
          (if 0 < ca.rating_weight_sum then
            (ca.rating_weight_sum / (ca.rating_weight_sum + 5000)) *
                (ca.rating_weighted_sum / ca.rating_weight_sum) +
              (5000 / (ca.rating_weight_sum + 5000)) *
                globalRating (filteredExtensions s f)
          else globalRating (filteredExtensions s f))) := by
  intro s f hv
  have hw : globalWeightedSum (filteredExtensions s f) =
      ((filteredExtensions s f).map
        (fun fe => fe.rating * fe.rating_votes)).sum :=
    filter_pos_votes_sum _ _ (fun fe h => by rw [h, mul_zero]) hv
  have hs : globalWeightSum (filteredExtensions s f) =
      ((filteredExtensions s f).map (fun fe => fe.rating_votes)).sum :=
    filter_pos_votes_sum _ _ (fun fe h => h) hv
  constructor
  · unfold globalRating
    split
    · rw [hw, hs]
    · rename_i hneg
      have hz : globalWeightSum (filteredExtensions s f) = 0 :=
        le_antisymm (not_lt.mp hneg) (globalWeightSum_nonneg _)
      rw [← hs, hz, div_zero]
  · intro row hrow
    unfold categoryScores categoryScoresList at hrow
    rw [List.mem_map] at hrow
    obtain ⟨ca, hca, hrow⟩ := hrow
    rw [List.mem_filter] at hca
    refine ⟨ca, hca.1, by simpa using hca.2, ?_⟩
    subst hrow
    show smoothedAvg ca.rating_weighted_sum ca.rating_weight_sum
        (globalRating (filteredExtensions s f)) = _
    unfold smoothedAvg OPPORTUNITIES_BAYES_PRIOR_WEIGHT
    rfl

/-- The witness snapshot for the aggregator claim: category 1 holds a
rated, voted extension; category 2 holds an extension with zero votes and
must inherit exactly the global average. -/
def c7snap : Snapshot :=
  { extensions :=
      [⟨1, "a", none, 1, some 4, 10, ""⟩, ⟨2, "b", none, 1, some 2, 0, ""⟩],
    categories := [⟨1, "A"⟩, ⟨2, "B"⟩],
    links := [⟨1, 1⟩, ⟨2, 2⟩] }

/-- Default filters for the C7 witness. -/
def c7filters : GlobalFilters := ⟨0, none, 0, 5, 0, "", ""⟩

/-- C7 witness: the aggregator contract instantiated on the witness
snapshot, with the non-negative-votes hypothesis discharged by
computation. -/
theorem C7_witness :
    globalRating (filteredExtensions c7snap c7filters) =
        ((filteredExtensions c7snap c7filters).map
          (fun fe => fe.rating * fe.rating_votes)).sum /
          ((filteredExtensions c7snap c7filters).map
            (fun fe => fe.rating_votes)).sum ∧
      (∀ row ∈ categoryScores c7snap c7filters, ∃ ca,
        ca ∈ categoryAggregates c7snap c7filters ∧
        0 < ca.competition_count ∧
        row.category_avg_rating =
          (if 0 < ca.rating_weight_sum then
            (ca.rating_weight_sum / (ca.rating_weight_sum + 5000)) *
                (ca.rating_weighted_sum / ca.rating_weight_sum) +
              (5000 / (ca.rating_weight_sum + 5000)) *
                globalRating (filteredExtensions c7snap c7filters)
          else globalRating (filteredExtensions c7snap c7filters))) :=
  C7_theorem c7snap c7filters (by decide)

/-- The `minUsers` branch of `parseGlobalFilters`, named for the proofs. -/
def parsedMinUsers (o : Option ℚ) : ℤ :=
  match o with
  | some r => if 0 ≤ r then ⌊r⌋ else 0
  | none => 0

/-- The `maxUsers` branches of `parseGlobalFilters`, named for the
proofs: floor-or-drop, then drop below `minUsers`. -/
def parsedMaxUsers (o : Option ℚ) (minU : ℤ) : Option ℤ :=
  match (match o with
         | some r => if 0 ≤ r then some ⌊r⌋ else none
         | none => none) with
  | some m => if m < minU then none else some m
  | none => none

/-- The rating-range branches of `parseGlobalFilters`, named for the
proofs: clamp both ends into `[0, 5]`, reset an inverted range. -/
def parsedRatingPair (omin omax : Option ℚ) : ℚ × ℚ :=
  let rMin0 : ℚ := match omin with | some r => clampQ r 0 5 | none => 0
  let rMax0 : ℚ := match omax with | some r => clampQ r 0 5 | none => 5
  if rMax0 < rMin0 then (0, 5) else (rMin0, rMax0)

/-- The `excludeTopPct` branch of `parseGlobalFilters`, named for the
proofs. -/
def parsedPct (o : Option ℚ) : ℤ :=
  match o with
  | some r => if r.den = 1 then min (max r.num 0) 50 else 0
  | none => 0

theorem parse_minUsers_eq (q : RawQuery) :
    (parseGlobalFilters q).minUsers = parsedMinUsers q.minUsers := rfl

theorem parse_maxUsers_eq (q : RawQuery) :
    (parseGlobalFilters q).maxUsers =
      parsedMaxUsers q.maxUsers (parsedMinUsers q.minUsers) := rfl

theorem parse_ratingMin_eq (q : RawQuery) :
    (parseGlobalFilters q).ratingMin =
      (parsedRatingPair q.ratingMin q.ratingMax).1 := rfl

theorem parse_ratingMax_eq (q : RawQuery) :
    (parseGlobalFilters q).ratingMax =
      (parsedRatingPair q.ratingMin q.ratingMax).2 := rfl

theorem parse_pct_eq (q : RawQuery) :
    (parseGlobalFilters q).excludeTopPct = parsedPct q.excludeTopPct := rfl

theorem parsedMinUsers_nonneg (o : Option ℚ) : 0 ≤ parsedMinUsers o := by
  unfold parsedMinUsers
  rcases o with _ | r
  · exact le_refl 0
  · dsimp only
    split
    · exact Int.floor_nonneg.mpr (by assumption)
    · exact le_refl 0

theorem parsedMaxUsers_ok (o : Option ℚ) (minU : ℤ) :
    parsedMaxUsers o minU = none ∨
      ∃ m, parsedMaxUsers o minU = some m ∧ 0 ≤ m ∧ minU ≤ m := by
  unfold parsedMaxUsers
  rcases o with _ | r
  · exact Or.inl rfl
  · dsimp only
    by_cases hr : 0 ≤ r
    · rw [if_pos hr]
      dsimp only
      by_cases hlt : ⌊r⌋ < minU
      · rw [if_pos hlt]
        exact Or.inl rfl
      · rw [if_neg hlt]
        exact Or.inr ⟨⌊r⌋, rfl, Int.floor_nonneg.mpr hr, not_lt.mp hlt⟩
    · rw [if_neg hr]
      exact Or.inl rfl

theorem clampQ_bounds (r : ℚ) : 0 ≤ clampQ r 0 5 ∧ clampQ r 0 5 ≤ 5 :=
  ⟨le_min (le_max_right _ _) (by norm_num), min_le_right _ _⟩

theorem parsedRatingPair_bounds (omin omax : Option ℚ) :
    0 ≤ (parsedRatingPair omin omax).1 ∧
      (parsedRatingPair omin omax).1 ≤ 5 ∧
      0 ≤ (parsedRatingPair omin omax).2 ∧
      (parsedRatingPair omin omax).2 ≤ 5 ∧
      (parsedRatingPair omin omax).1 ≤ (parsedRatingPair omin omax).2 := by
  unfold parsedRatingPair
  rcases omin with _ | r1 <;> rcases omax with _ | r2 <;> dsimp only
  · rw [if_neg (by norm_num : ¬ (5 : ℚ) < 0)]
    norm_num
  · by_cases hinv : clampQ r2 0 5 < 0
    · rw [if_pos hinv]
      norm_num
    · rw [if_neg hinv]
      exact ⟨le_refl 0, by norm_num, (clampQ_bounds r2).1,
        (clampQ_bounds r2).2, not_lt.mp hinv⟩
  · by_cases hinv : (5 : ℚ) < clampQ r1 0 5
    · rw [if_pos hinv]
      norm_num
    · rw [if_neg hinv]
      exact ⟨(clampQ_bounds r1).1, (clampQ_bounds r1).2, by norm_num,
        le_refl (5 : ℚ), not_lt.mp hinv⟩
  · by_cases hinv : clampQ r2 0 5 < clampQ r1 0 5
    · rw [if_pos hinv]
      norm_num
    · rw [if_neg hinv]
      exact ⟨(clampQ_bounds r1).1, (clampQ_bounds r1).2, (clampQ_bounds r2).1,
        (clampQ_bounds r2).2, not_lt.mp hinv⟩

theorem parsedRatingPair_reset (a b : ℚ) (h : clampQ b 0 5 < clampQ a 0 5) :
    parsedRatingPair (some a) (some b) = (0, 5) := by
  unfold parsedRatingPair
  exact if_pos h

theorem parsedPct_bounds (o : Option ℚ) :
    0 ≤ parsedPct o ∧ parsedPct o ≤ 50 := by
  unfold parsedPct
  rcases o with _ | r
  · norm_num
  · dsimp only
    split
    · exact ⟨le_min (le_max_right _ _) (by norm_num), min_le_right _ _⟩
    · norm_num

theorem parsedMaxUsers_drop (a b : ℚ) (ha : 0 ≤ a) (hb : 0 ≤ b)
    (h : ⌊b⌋ < ⌊a⌋) :
    parsedMaxUsers (some b) (parsedMinUsers (some a)) = none := by
  unfold parsedMaxUsers parsedMinUsers
  dsimp only
  rw [if_pos ha, if_pos hb]
  dsimp only
  exact if_pos h

/-- C8: for every combination of (possibly absent, malformed or
out-of-range) query parameters, `parseGlobalFilters` produces a filter set
that satisfies the zod schema (so the final `.parse` never raises):
`minUsers ≥ 0`, a present `maxUsers` is `≥ minUsers` (so `maxUsers <
minUsers` behaves as unset), the rating range is clamped into `[0, 5]`
and never inverted — an inverted input range resets to the full `[0, 5]` —
and `excludeTopPct` is clamped into `[0, 50]`. -/
theorem C8_theorem :
    ∀ q : RawQuery,
      validGlobalFilters (parseGlobalFilters q) = true ∧
      (parseGlobalFilters q).ratingMin ≤ (parseGlobalFilters q).ratingMax ∧
      ((parseGlobalFilters q).maxUsers.all
        (fun m => decide ((parseGlobalFilters q).minUsers ≤ m))) = true ∧
      (∀ a b, q.ratingMin = some a → q.ratingMax = some b →
        clampQ b 0 5 < clampQ a 0 5 →
        (parseGlobalFilters q).ratingMin = 0 ∧
          (parseGlobalFilters q).ratingMax = 5) ∧
      (∀ a b, q.minUsers = some a → q.maxUsers = some b → 0 ≤ a → 0 ≤ b →
        (⌊b⌋ : ℤ) < ⌊a⌋ → (parseGlobalFilters q).maxUsers = none) := by
  intro q
  have hbounds := parsedRatingPair_bounds q.ratingMin q.ratingMax
  refine ⟨?_, ?_, ?_, ?_, ?_⟩
  · unfold validGlobalFilters
    simp only [Bool.and_eq_true, decide_eq_true_eq]
    refine ⟨⟨⟨⟨⟨⟨⟨?_, ?_⟩, ?_⟩, ?_⟩, ?_⟩, ?_⟩, ?_⟩, ?_⟩
    · rw [parse_minUsers_eq]
      exact parsedMinUsers_nonneg _
    · rw [parse_maxUsers_eq]
      rcases parsedMaxUsers_ok q.maxUsers (parsedMinUsers q.minUsers) with
        h | ⟨m, h, hm, _⟩
      · rw [h]
      · rw [h]
        simpa using hm
    · rw [parse_ratingMin_eq]
      exact hbounds.1
    · rw [parse_ratingMin_eq]
      exact hbounds.2.1
    · rw [parse_ratingMax_eq]
      exact hbounds.2.2.1
    · rw [parse_ratingMax_eq]
      exact hbounds.2.2.2.1
    · rw [parse_pct_eq]
      exact (parsedPct_bounds _).1
    · rw [parse_pct_eq]
      exact (parsedPct_bounds _).2
  · rw [parse_ratingMin_eq, parse_ratingMax_eq]
    exact hbounds.2.2.2.2
  · rw [parse_maxUsers_eq]
    rcases parsedMaxUsers_ok q.maxUsers (parsedMinUsers q.minUsers) with
      h | ⟨m, h, _, hge⟩
    · rw [h]
      rfl
    · rw [h]
      rw [parse_minUsers_eq]
      simpa using hge
  · intro a b hqa hqb hlt
    constructor
    · rw [parse_ratingMin_eq, hqa, hqb, parsedRatingPair_reset a b hlt]
    · rw [parse_ratingMax_eq, hqa, hqb, parsedRatingPair_reset a b hlt]
  · intro a b hqa hqb ha hb hfl
    rw [parse_maxUsers_eq, hqa, hqb]
    exact parsedMaxUsers_drop a b ha hb hfl

/-- The witness query string set of the C8 scenario:
`minUsers=100000, maxUsers=50`, inverted rating range `4 > 2`, and a
non-integral `excludeTopPct`. -/
def c8query : RawQuery :=
  ⟨some 100000, some 50, some 4, some 2, some (121 / 2), "en", ""⟩

/-- C8 witness: on the scenario query the parsed filters satisfy the
schema, the inverted rating range resets to `[0, 5]`, and
`maxUsers < minUsers` behaves as unset. -/
theorem C8_witness :
    validGlobalFilters (parseGlobalFilters c8query) = true ∧
    ((parseGlobalFilters c8query).ratingMin = 0 ∧
      (parseGlobalFilters c8query).ratingMax = 5) ∧
    (parseGlobalFilters c8query).maxUsers = none :=
  ⟨(C8_theorem c8query).1,
   (C8_theorem c8query).2.2.2.1 4 2 rfl rfl (by norm_num [clampQ]),
   (C8_theorem c8query).2.2.2.2 100000 50 rfl rfl (by norm_num) (by norm_num)
     (by norm_num)⟩

/-- C9: the users histogram assigns `users = 0` to the degenerate bucket
`[0, 0]` and any `u` with `10^(k-1) <= u <= 10^k - 1` (for `k >= 1`) to
bucket `k`, whose bounds are `[10^(k-1), 10^k - 1]` — the log10-decade
scheme of the spec, with bucket 1 covering `1..9`. -/
theorem C9_theorem :
    (usersBucket ((0 : ℕ) : ℝ) = 0 ∧ bucketStart 0 = 0 ∧ bucketEnd 0 = 0) ∧
    ∀ (k u : ℕ), 1 ≤ k → 10 ^ (k - 1) ≤ u → u ≤ 10 ^ k - 1 →
      usersBucket (u : ℝ) = (k : ℤ) ∧
      bucketStart (k : ℤ) = (10 : ℝ) ^ (k - 1) ∧
      bucketEnd (k : ℤ) = (10 : ℝ) ^ k - 1 := by
  constructor
  · refine ⟨?_, ?_, ?_⟩
    · unfold usersBucket
      rw [if_pos (by norm_num)]
    · unfold bucketStart
      rw [if_pos rfl]
    · unfold bucketEnd
      rw [if_pos rfl]
  · intro k u hk h1 h2
    have hpow : (0 : ℕ) < 10 ^ k := pow_pos (by norm_num) k
    have h2' : u < 10 ^ k := by omega
    have hu : 0 < u := lt_of_lt_of_le (pow_pos (by norm_num) (k - 1)) h1
    have hkz : (k : ℤ) ≠ 0 := by
      simpa using Nat.pos_iff_ne_zero.mp hk
    have hstart : bucketStart (k : ℤ) = (10 : ℝ) ^ (k - 1) := by
      unfold bucketStart
      rw [if_neg hkz, show (k : ℤ) - 1 = ((k - 1 : ℕ) : ℤ) by omega,
        zpow_natCast]
    have hend : bucketEnd (k : ℤ) = (10 : ℝ) ^ k - 1 := by
      unfold bucketEnd
      rw [if_neg hkz, zpow_natCast]
    refine ⟨?_, hstart, hend⟩
    have huR : (0 : ℝ) < (u : ℝ) := by exact_mod_cast hu
    unfold usersBucket
    rw [if_neg (not_le.mpr huR)]
    rcases Nat.lt_or_ge u 10 with hu10 | hu10
    · -- small bucket: k must be 1
      have hk1 : k = 1 := by
        by_contra hne
        have hk2 : 2 ≤ k := by omega
        have : (10 : ℕ) ^ 1 ≤ 10 ^ (k - 1) :=
          Nat.pow_le_pow_right (by norm_num) (by omega)
        omega
      subst hk1
      rw [if_pos (by exact_mod_cast hu10)]
      norm_num
    · have h10R : (10 : ℝ) ≤ (u : ℝ) := by exact_mod_cast hu10
      rw [if_neg (not_lt.mpr h10R)]
      have hlog10 : 0 < Real.log 10 := Real.log_pos (by norm_num)
      have hfl : ⌊Real.log (u : ℝ) / Real.log 10⌋ = (k : ℤ) - 1 := by
        rw [Int.floor_eq_iff]
        constructor
        · -- (k - 1 : ℝ) ≤ log u / log 10
          rw [le_div_iff₀ hlog10]
          have hcast : ((10 : ℝ) ^ (k - 1)) ≤ (u : ℝ) := by
            exact_mod_cast h1
          have hlow : Real.log ((10 : ℝ) ^ (k - 1)) ≤ Real.log (u : ℝ) :=
            (Real.log_le_log_iff (by positivity) huR).mpr hcast
          rw [Real.log_pow] at hlow
          have : ((k : ℝ) - 1) = ((k - 1 : ℕ) : ℝ) := by
            push_cast [Nat.cast_sub hk]
            ring
          push_cast
          rw [show ((k : ℝ) - 1) * Real.log 10 =
              ((k - 1 : ℕ) : ℝ) * Real.log 10 by rw [this]]
          exact hlow
        · -- log u / log 10 < (k - 1) + 1 = k
          rw [div_lt_iff₀ hlog10]
          have hcast : (u : ℝ) < ((10 : ℝ) ^ k) := by exact_mod_cast h2'
          have hup : Real.log (u : ℝ) < Real.log ((10 : ℝ) ^ k) :=
            Real.log_lt_log huR hcast
          rw [Real.log_pow] at hup
          push_cast
          calc Real.log (u : ℝ) < (k : ℝ) * Real.log 10 := hup
            _ = ((k : ℝ) - 1 + 1) * Real.log 10 := by ring
      rw [hfl]
      omega

/-- C9 witness: `users = 0` falls in bucket `[0, 0]`, `users = 7` in
bucket 1 with bounds `[1, 9]`, and `users = 250` in bucket 3 with bounds
`[100, 999]`. -/
theorem C9_witness :
    (usersBucket ((0 : ℕ) : ℝ) = 0 ∧ bucketStart 0 = 0 ∧ bucketEnd 0 = 0) ∧
    (usersBucket ((7 : ℕ) : ℝ) = ((1 : ℕ) : ℤ) ∧
      bucketStart ((1 : ℕ) : ℤ) = (10 : ℝ) ^ ((1 : ℕ) - 1) ∧
      bucketEnd ((1 : ℕ) : ℤ) = (10 : ℝ) ^ (1 : ℕ) - 1) ∧
    (usersBucket ((250 : ℕ) : ℝ) = ((3 : ℕ) : ℤ) ∧
      bucketStart ((3 : ℕ) : ℤ) = (10 : ℝ) ^ ((3 : ℕ) - 1) ∧
      bucketEnd ((3 : ℕ) : ℤ) = (10 : ℝ) ^ (3 : ℕ) - 1) :=
  ⟨C9_theorem.1,
   C9_theorem.2 1 7 (by norm_num) (by norm_num) (by norm_num),
   C9_theorem.2 3 250 (by norm_num) (by norm_num) (by norm_num)⟩
